import Mathlib

/-!
Verification of the SmartChef waitlist service.

This file gives a shallow embedding of the parts of the repository that the
specification talks about:

* `src/smartchef-waitlist/src/lib/validation.ts` — `validateEmailFormat`,
  `sanitizeInput`, `validateSchool`, `validateForm`;
* `src/smartchef-waitlist/src/lib/rateLimit.ts` — the in-memory rate-limit
  store, `checkRateLimit`, `rateLimitMiddleware`, `addRateLimitHeaders`,
  `cleanupRateLimitStore`;
* `src/smartchef-waitlist/src/app/api/signup/route.ts` — environment-variable
  validation, the MailerLite provider call wrapper, and the `POST` handler;
* `src/smartchef-waitlist/src/app/page.tsx` — the client submission flow.

JavaScript strings are modelled as Lean `String` (with the heavy lifting done
on `List Char`), `Date.now()` timestamps as `Nat` milliseconds, and the
mutable `Map` that backs the rate limiter as a function `String → Option`.
External effects (the provider HTTP call, the environment) are inputs of the
embedded functions.
-/

set_option maxRecDepth 100000
set_option maxHeartbeats 2000000

namespace SmartChef

/-! ### JavaScript string primitives

Executable models of the JS string operations the source uses:
`trim`, `includes`, `startsWith`, `substring(0, n)`, and the global
(case-insensitive) `replace(..., '')` calls of `sanitizeInput`.
-/

/-- The WhiteSpace / LineTerminator set recognised by JavaScript
`String.prototype.trim` (code points). -/
def jsWSCodes : List Nat :=
  [9, 10, 11, 12, 13, 32, 160, 5760, 8192, 8193, 8194, 8195, 8196, 8197,
   8198, 8199, 8200, 8201, 8202, 8232, 8233, 8239, 8287, 12288, 65279]

/-- Is `c` JavaScript whitespace? -/
def jsWS (c : Char) : Bool := jsWSCodes.contains c.toNat

/-- JS `String.prototype.trim`: drop whitespace from both ends. -/
def jsTrim (s : List Char) : List Char :=
  ((s.dropWhile jsWS).reverse.dropWhile jsWS).reverse

/-- `leadsWith p s`: `p` is a prefix of `s` (exact characters). -/
def leadsWith : List Char → List Char → Bool
  | [], _ => true
  | _ :: _, [] => false
  | a :: p, b :: s => a == b && leadsWith p s

/-- `containsSub p s`: `p` occurs as a contiguous substring of `s`
(JS `String.prototype.includes`). -/
def containsSub (p : List Char) : List Char → Bool
  | [] => p.isEmpty
  | c :: rest => leadsWith p (c :: rest) || containsSub p rest

/-- JS `a.includes(b)` on `String`. -/
def strIncludes (s pat : String) : Bool := containsSub pat.data s.data

/-- JS `a.startsWith(b)` on `String`. -/
def strStarts (s pat : String) : Bool := leadsWith pat.data s.data

/-- ASCII lower-casing of a character.  The case-insensitive patterns the
source matches (`/javascript:/gi`, …) are all ASCII, and JS non-Unicode regex
canonicalisation never lets a non-ASCII character match an ASCII pattern
character, so ASCII folding is a faithful model. -/
def lowerChar (c : Char) : Char :=
  if 'A' ≤ c && c ≤ 'Z' then Char.ofNat (c.toNat + 32) else c

/-- `leadsWithCI p s`: the (already lower-case) pattern `p` is a prefix of `s`
up to ASCII case. -/
def leadsWithCI : List Char → List Char → Bool
  | [], _ => true
  | _ :: _, [] => false
  | a :: p, b :: s => lowerChar b == a && leadsWithCI p s

/-- Does the (lower-case) pattern `p` occur in `s` up to case?  This is the
match condition of a `/pat/gi` regex with a literal pattern. -/
def hasCI (p : List Char) : List Char → Bool
  | [] => false
  | c :: rest => leadsWithCI p (c :: rest) || hasCI p rest

/-- One fuel-indexed step of JS `s.replace(/pat/gi, '')` for a literal
pattern: scan left to right, drop each (case-insensitive) occurrence, and
resume scanning after the dropped occurrence — the replaced output is never
rescanned.  `fuel ≥ s.length` makes the fuel branch unreachable. -/
def removeCIAux (p : List Char) : Nat → List Char → List Char
  | 0, _ => []
  | _, [] => []
  | fuel + 1, c :: rest =>
    if leadsWithCI p (c :: rest) then
      removeCIAux p fuel (List.drop (p.length - 1) rest)
    else
      c :: removeCIAux p fuel rest

/-- JS `s.replace(/pat/gi, '')` for a literal lower-case pattern `p`. -/
def removeCI (p s : List Char) : List Char := removeCIAux p s.length s

/-- Word characters of the JS regex class `\w`. -/
def isWordChar (c : Char) : Bool :=
  ('a' ≤ c && c ≤ 'z') || ('A' ≤ c && c ≤ 'Z') || ('0' ≤ c && c ≤ '9') || c == '_'

/-- Length of the match of `/on\w+=/i` anchored at the head of `s`, if any.
The greedy `\w+` must be followed by `=`; since `=` is not a word character,
the regex matches exactly when the maximal word-character run after `on` is
nonempty and is immediately followed by `=`. -/
def onMatchLen (s : List Char) : Option Nat :=
  match s with
  | a :: b :: rest =>
    if lowerChar a == 'o' && lowerChar b == 'n' then
      let run := rest.takeWhile isWordChar
      if run.length > 0 then
        match rest.dropWhile isWordChar with
        | '=' :: _ => some (2 + run.length + 1)
        | _ => none
      else none
    else none
  | _ => none

/-- Does `/on\w+=/gi` match anywhere in `s`? -/
def hasOnPattern : List Char → Bool
  | [] => false
  | c :: rest => (onMatchLen (c :: rest)).isSome || hasOnPattern rest

/-- Fuel-indexed JS `s.replace(/on\w+=/gi, '')`, same scanning discipline as
`removeCIAux`. -/
def removeOnAux : Nat → List Char → List Char
  | 0, _ => []
  | _, [] => []
  | fuel + 1, c :: rest =>
    match onMatchLen (c :: rest) with
    | some k => removeOnAux fuel (List.drop k (c :: rest))
    | none => c :: removeOnAux fuel rest

/-- JS `s.replace(/on\w+=/gi, '')`. -/
def removeOn (s : List Char) : List Char := removeOnAux s.length s

/-! ### `lib/validation.ts` -/

/-- Core of `sanitizeInput` (validation.ts): trim, drop `[<>]`, drop the
`javascript:` / `data:` / `vbscript:` protocols and `on…=` handlers and
`<script` / `</script` fragments case-insensitively, then
`substring(0, 100)`. -/
def sanitizeCore (s : List Char) : List Char :=
  (removeCI "</script".data
    (removeCI "<script".data
      (removeOn
        (removeCI "vbscript:".data
          (removeCI "data:".data
            (removeCI "javascript:".data
              ((jsTrim s).filter (fun c => !(c == '<' || c == '>'))))))))).take 100

/-- `sanitizeInput` from `lib/validation.ts` (the `typeof` guard is vacuous on
strings). -/
def sanitizeInput (input : String) : String := String.mk (sanitizeCore input.data)

/-- The character class of the local part of `EMAIL_REGEX`:
`[a-zA-Z0-9.!#$%&'*+/=?^_`{|}~-]`. -/
def isAlnum (c : Char) : Bool :=
  ('a' ≤ c && c ≤ 'z') || ('A' ≤ c && c ≤ 'Z') || ('0' ≤ c && c ≤ '9')

/-- Code points of the non-alphanumeric characters allowed in the local part:
`. ! # $ % & ' * + / = ? ^ _ \x60 \x7b | \x7d ~ -`. -/
def localExtraCodes : List Nat :=
  [46, 33, 35, 36, 37, 38, 39, 42, 43, 47, 61, 63, 94, 95, 96, 123, 124, 126, 125, 45]

def isLocalChar (c : Char) : Bool := isAlnum c || localExtraCodes.contains c.toNat

def isAlnumDash (c : Char) : Bool := isAlnum c || c == '-'

/-- Tail of a domain label after its first character: all characters in
`[a-zA-Z0-9-]` and the last one alphanumeric (empty tail allowed). -/
def labelTail : List Char → Bool
  | [] => true
  | [c] => isAlnum c
  | c :: rest => isAlnumDash c && labelTail rest

/-- One domain label of `EMAIL_REGEX`:
`[a-zA-Z0-9](?:[a-zA-Z0-9-]{0,61}[a-zA-Z0-9])?`, i.e. nonempty, length at
most 63, first and last alphanumeric, interior in `[a-zA-Z0-9-]`. -/
def labelOk (l : List Char) : Bool :=
  match l with
  | [] => false
  | c :: rest => isAlnum c && l.length ≤ 63 && labelTail rest

/-- Split on `.` (for the dot-separated domain labels); empty labels are
produced for leading, trailing or doubled dots. -/
def splitDots : List Char → List (List Char)
  | [] => [[]]
  | c :: rest =>
    match splitDots rest with
    | [] => [[]]
    | p :: ps => if c == '.' then [] :: p :: ps else (c :: p) :: ps

/-- `EMAIL_REGEX.test` from `lib/validation.ts`:
`^[a-zA-Z0-9.!#$%&'*+/=?^_\x60{|}~-]+@[a-zA-Z0-9](?:[a-zA-Z0-9-]{0,61}[a-zA-Z0-9])?(?:\.[a-zA-Z0-9](?:[a-zA-Z0-9-]{0,61}[a-zA-Z0-9])?)*$`.
Since `@` belongs to no character class of the regex, a matching string is
exactly a nonempty local part (all characters in the local class) up to the
first `@`, followed by `@` and dot-separated labels. -/
def emailMatch (s : List Char) : Bool :=
  let lpart := s.takeWhile (fun c => c != '@')
  match s.dropWhile (fun c => c != '@') with
  | [] => false
  | c :: domain =>
    c == '@' && !lpart.isEmpty && lpart.all isLocalChar && (splitDots domain).all labelOk

/-- `validateEmailFormat` from `lib/validation.ts`: security guards (empty,
length over 254, `..`, `javascript:`, `<script>`) then the regex test. -/
def validateEmailFormat (email : String) : Bool :=
  if email = "" then false
  else if 254 < email.length then false
  else if strIncludes email ".." then false
  else if strIncludes email "javascript:" then false
  else if strIncludes email "<script>" then false
  else emailMatch email.data

/-- `validateSchool` from `lib/validation.ts`. -/
def validateSchool (school : String) : Bool :=
  if school = "" then true
  else if 100 < school.length then false
  else if (jsTrim school.data).length = 0 then false
  else true

/-- Validation errors of `validateForm` (`lib/validation.ts`). -/
structure ValidationErrors where
  email : Option String := none
  school : Option String := none
deriving DecidableEq, Repr

/-- `validateForm` from `lib/validation.ts` applied to
`{ email, school? }` (the optional `school` is `none` when absent). -/
def validateForm (email : String) (school : Option String) : ValidationErrors :=
  let emailErr : Option String :=
    if String.mk (jsTrim email.data) = "" then some "Email is required"
    else if !validateEmailFormat email then some "Please enter a valid email address"
    else none
  let schoolErr : Option String :=
    match school with
    | none => none
    | some sc =>
      if sc = "" then none
      else if !validateSchool sc then some "School name is too long (max 100 characters)"
      else none
  { email := emailErr, school := schoolErr }

/-! ### `lib/rateLimit.ts` -/

/-- One record of the in-memory store: `{ count, resetTime }`. -/
structure RLEntry where
  count : Nat
  resetTime : Nat
deriving DecidableEq, Repr

/-- The module-level `rateLimitStore` `Map`, modelled as a partial map from
client IP to entry. -/
def RLStore : Type := String → Option RLEntry

/-- The empty store (module initialisation state). -/
def rlEmpty : RLStore := fun _ => none

/-- `RATE_LIMIT_CONFIG.windowMs = 15 * 60 * 1000`. -/
def windowMs : Nat := 15 * 60 * 1000

/-- `RATE_LIMIT_CONFIG.maxRequests = 5`. -/
def maxRequests : Nat := 5

/-- `RATE_LIMIT_CONFIG.message`. -/
def rlMessage : String :=
  "Too many signup attempts. Please wait 15 minutes before trying again."

/-- Result record of `checkRateLimit`. -/
structure RLResult where
  allowed : Bool
  remaining : Nat
  resetTime : Nat
deriving DecidableEq, Repr

/-- `Map.set` on the store. -/
def rlSet (store : RLStore) (ip : String) (e : RLEntry) : RLStore :=
  fun k => if k = ip then some e else store k

/-- `checkRateLimit` from `lib/rateLimit.ts`, with the mutation of
`rateLimitStore` made explicit: takes the store and the value of
`Date.now()`, returns the result record and the updated store. -/
def checkRateLimit (store : RLStore) (clientIP : String) (now : Nat) :
    RLResult × RLStore :=
  match store clientIP with
  | none =>
    ({ allowed := true, remaining := maxRequests - 1, resetTime := now + windowMs },
     rlSet store clientIP { count := 1, resetTime := now + windowMs })
  | some existing =>
    if existing.resetTime < now then
      ({ allowed := true, remaining := maxRequests - 1, resetTime := now + windowMs },
       rlSet store clientIP { count := 1, resetTime := now + windowMs })
    else if maxRequests ≤ existing.count then
      ({ allowed := false, remaining := 0, resetTime := existing.resetTime }, store)
    else
      ({ allowed := true, remaining := maxRequests - (existing.count + 1),
         resetTime := existing.resetTime },
       rlSet store clientIP { count := existing.count + 1, resetTime := existing.resetTime })

/-- The expired-entry sweep: the loop bodies of `rateLimitMiddleware` (on a
denied request) and of `cleanupRateLimitStore`, which delete every entry with
`resetTime < now`. -/
def sweepStore (store : RLStore) (now : Nat) : RLStore :=
  fun k =>
    match store k with
    | some e => if e.resetTime < now then none else some e
    | none => none

/-- `cleanupRateLimitStore` from `lib/rateLimit.ts`. -/
def cleanupRateLimitStore (store : RLStore) (now : Nat) : RLStore :=
  sweepStore store now

/-- `Math.ceil(ms / 1000)` on nonnegative millisecond counts. -/
def ceilSeconds (ms : Nat) : Nat := (ms + 999) / 1000

/-- An HTTP response of the API route: status, the JSON body fields the
route ever writes, and the explicitly-set headers. -/
structure Response where
  status : Nat
  success : Bool := false
  error : Option String := none
  message : Option String := none
  retryAfter : Option Nat := none
  subscriberId : Option String := none
  details : Option String := none
  headers : List (String × String) := []
deriving DecidableEq, Repr

/-- Does the response carry a header with this name? -/
def hasHeader (resp : Response) (name : String) : Bool :=
  resp.headers.any (fun p => p.1 == name)

/-- `rateLimitMiddleware` from `lib/rateLimit.ts`: run `checkRateLimit` for
the client IP; on denial sweep expired entries and build the 429 response
(with the `X-RateLimit-*` and `Retry-After` headers), otherwise return no
response.  The client IP (the result of `getClientIP`, which reads the
forwarding headers of the request) is an input. -/
def rateLimitMiddleware (store : RLStore) (clientIP : String) (now : Nat) :
    Option Response × RLStore :=
  let checked := checkRateLimit store clientIP now
  if checked.1.allowed then (none, checked.2)
  else
    (some
      { status := 429
        error := some "RATE_LIMITED"
        message := some rlMessage
        retryAfter := some (ceilSeconds (checked.1.resetTime - now))
        headers :=
          [("Content-Type", "application/json"),
           ("X-RateLimit-Limit", toString maxRequests),
           ("X-RateLimit-Remaining", toString checked.1.remaining),
           ("X-RateLimit-Reset", toString checked.1.resetTime),
           ("Retry-After", toString (ceilSeconds (checked.1.resetTime - now)))] },
     sweepStore checked.2 now)

/-- `addRateLimitHeaders` from `lib/rateLimit.ts`: note that it calls
`checkRateLimit` again for the same client IP, so it also updates the store. -/
def addRateLimitHeaders (resp : Response) (store : RLStore) (clientIP : String)
    (now : Nat) : Response × RLStore :=
  let checked := checkRateLimit store clientIP now
  ({ resp with
      headers := resp.headers ++
        [("X-RateLimit-Limit", toString maxRequests),
         ("X-RateLimit-Remaining", toString checked.1.remaining),
         ("X-RateLimit-Reset", toString checked.1.resetTime)] },
   checked.2)

/-- Run `checkRateLimit` once per listed timestamp, threading the store;
returns the result list and the final store. -/
def rlRun (store : RLStore) (ip : String) : List Nat → List RLResult × RLStore
  | [] => ([], store)
  | t :: ts =>
    let step := checkRateLimit store ip t
    let rest := rlRun step.2 ip ts
    (step.1 :: rest.1, rest.2)

/-! ### `app/api/signup/route.ts` -/

/-- Validated MailerLite configuration. -/
structure Config where
  apiKey : String
  groupId : String
deriving DecidableEq, Repr

/-- JS falsiness of an optional string field (`undefined` or `''`). -/
def strFalsy : Option String → Bool
  | none => true
  | some s => s = ""

/-- `validateEnvironmentVariables` from `route.ts`, over the external
environment `(MAILERLITE_API_KEY, MAILERLITE_GROUP_ID)`; a thrown
`MISSING_CONFIG` error is an `Except.error` carrying the error message. -/
def validateEnvironmentVariables (apiKeyEnv groupIdEnv : Option String) :
    Except String Config :=
  if strFalsy apiKeyEnv || strFalsy groupIdEnv then .error "MISSING_CONFIG"
  else
    let apiKey := apiKeyEnv.getD ""
    let groupId := groupIdEnv.getD ""
    if strStarts apiKey "TODO_" || strStarts groupId "TODO_" ||
        strIncludes apiKey "your_" || strIncludes groupId "your_" ||
        strIncludes apiKey "please_replace" then .error "MISSING_CONFIG"
    else if apiKey.length < 100 || 2000 < apiKey.length then .error "MISSING_CONFIG"
    else if !(groupId.length > 0 && groupId.data.all Char.isDigit) then
      .error "MISSING_CONFIG"
    else .ok { apiKey := apiKey, groupId := groupId }

/-- Outcome of the outbound `fetch` to the MailerLite subscriber endpoint
(the external provider), as observed by `addSubscriberToMailerLite`:
a 2xx response carrying `data.id`; HTTP 429; HTTP 400 with the body's
`error.message`; any other non-2xx status; an abort of the 10-second
`AbortSignal.timeout` (an error named `AbortError`); or any other thrown
error, carrying its message. -/
inductive ProviderOutcome where
  | ok (subscriberId : Option String)
  | http429
  | http400 (errMessage : Option String)
  | httpOtherNonOk (status : Nat)
  | aborted
  | thrown (msg : String)
deriving DecidableEq, Repr

/-- Is the 400 body a duplicate-email error
(`errorData.error.message` includes `already exists` / `already subscribed`)? -/
def isDuplicateBody : Option String → Bool
  | none => false
  | some m => strIncludes m "already exists" || strIncludes m "already subscribed"

/-- `addSubscriberToMailerLite` from `route.ts`: configuration check, then
the translation of the provider outcome; a thrown error is an
`Except.error` carrying the `Error.message` the route's `catch` switches on. -/
def addSubscriberToMailerLite (apiKeyEnv groupIdEnv : Option String)
    (outcome : ProviderOutcome) : Except String (Option String) :=
  match validateEnvironmentVariables apiKeyEnv groupIdEnv with
  | .error e => .error e
  | .ok _ =>
    match outcome with
    | .http429 => .error "RATE_LIMITED"
    | .http400 m => if isDuplicateBody m then .error "DUPLICATE_EMAIL" else .error "API_ERROR"
    | .httpOtherNonOk _ => .error "API_ERROR"
    | .ok sid => .ok sid
    | .aborted => .error "NETWORK_ERROR"
    | .thrown m => .error m

/-- The `catch` block of `POST`: map the caught error message to a JSON
response. -/
def mapCaughtError (m : String) : Response :=
  if m = "MISSING_CONFIG" then
    { status := 500, error := some "MISSING_CONFIG"
      message := some "Service temporarily unavailable. Please try again later."
      details := some "MailerLite API configuration is missing. Check server logs for setup instructions."
      headers := [("Content-Type", "application/json")] }
  else if m = "DUPLICATE_EMAIL" then
    { status := 400, error := some "DUPLICATE_EMAIL"
      message := some "This email is already on our waitlist!"
      headers := [("Content-Type", "application/json")] }
  else if m = "RATE_LIMITED" then
    { status := 429, error := some "RATE_LIMITED"
      message := some "Too many requests. Please wait a moment and try again."
      headers := [("Content-Type", "application/json")] }
  else if m = "NETWORK_ERROR" then
    { status := 500, error := some "NETWORK_ERROR"
      message := some "Connection timeout. Please try again."
      headers := [("Content-Type", "application/json")] }
  else
    { status := 500, error := some "API_ERROR"
      message := some "Something went wrong. Please try again later."
      headers := [("Content-Type", "application/json")] }

/-- A 400 validation response of `POST` (`NextResponse.json`). -/
def badRequest (err msg : String) : Response :=
  { status := 400, error := some err, message := some msg
    headers := [("Content-Type", "application/json")] }

/-- Parsed JSON body of a signup request; a field is `none` when absent. -/
structure SignupBody where
  email : Option String := none
  school : Option String := none
deriving DecidableEq, Repr

/-- A signup request as the route observes it: the client IP derived by
`getClientIP` from the forwarding headers, the `content-type` header, and
the body (`none` when `request.json()` rejects). -/
structure SignupReq where
  ip : String
  contentType : Option String := some "application/json"
  body : Option SignupBody := none
deriving DecidableEq, Repr

/-- `content-type` check of `POST`:
`contentType && contentType.includes('application/json')`. -/
def ctOk : Option String → Bool
  | none => false
  | some ct => strIncludes ct "application/json"

/-- The sanitized school value: `body.school ? sanitizeInput(body.school) : undefined`. -/
def sanitizedSchool (body : SignupBody) : Option String :=
  if strFalsy body.school then none else some (sanitizeInput (body.school.getD ""))

/-- The school length gate of `POST`: `school && school.length > 100` on the
sanitized value. -/
def schoolTooLong : Option String → Bool
  | none => false
  | some s => !(s = "") && 100 < s.length

/-- The `try` block of `POST` after the rate-limit gate: content-type check,
body parse, field validation, sanitization, provider call, and the success
response (on which `addRateLimitHeaders` runs `checkRateLimit` a second
time); every thrown error goes through `mapCaughtError`. -/
def handleSignup (req : SignupReq) (apiKeyEnv groupIdEnv : Option String)
    (outcome : ProviderOutcome) (store : RLStore) (now : Nat) :
    Response × RLStore :=
  if ctOk req.contentType then
    match req.body with
    | none => (mapCaughtError "body parse error", store)
    | some body =>
      if strFalsy body.email then
        (badRequest "INVALID_EMAIL" "Email is required", store)
      else
        let email := sanitizeInput (body.email.getD "")
        let school := sanitizedSchool body
        if validateEmailFormat email then
          if schoolTooLong school then
            (badRequest "INVALID_SCHOOL" "School name is too long (max 100 characters)", store)
          else
            match addSubscriberToMailerLite apiKeyEnv groupIdEnv outcome with
            | .ok sid =>
              addRateLimitHeaders
                { status := 200, success := true
                  message := some "Successfully added to waitlist"
                  subscriberId := some (sid.getD "unknown")
                  headers := [("Content-Type", "application/json")] }
                store req.ip now
            | .error m => (mapCaughtError m, store)
        else
          (badRequest "INVALID_EMAIL" "Please enter a valid email address", store)
  else
    (badRequest "INVALID_CONTENT_TYPE" "Content-Type must be application/json", store)

/-- `POST` from `route.ts`: the rate-limit gate, then `handleSignup`. -/
def POST (req : SignupReq) (apiKeyEnv groupIdEnv : Option String)
    (outcome : ProviderOutcome) (store : RLStore) (now : Nat) :
    Response × RLStore :=
  let gate := rateLimitMiddleware store req.ip now
  match gate.1 with
  | some resp => (resp, gate.2)
  | none => handleSignup req apiKeyEnv groupIdEnv outcome gate.2 now

/-- Run `POST` once per listed timestamp with a fixed request, environment
and provider outcome, threading the store. -/
def postRun (req : SignupReq) (apiKeyEnv groupIdEnv : Option String)
    (outcome : ProviderOutcome) (store : RLStore) :
    List Nat → List Response × RLStore
  | [] => ([], store)
  | t :: ts =>
    let step := POST req apiKeyEnv groupIdEnv outcome store t
    let rest := postRun req apiKeyEnv groupIdEnv outcome step.2 ts
    (step.1 :: rest.1, rest.2)

/-- A well-formed environment for concrete runs: a 120-character key and a
numeric group id. -/
def goodKey : String := String.mk (List.replicate 120 'k')


/-! ### `app/page.tsx` — client submission controller -/

/-- The `signupForm` React state together with the `validationErrors` state. -/
structure FormState where
  email : String := ""
  school : String := ""
  isLoading : Bool := false
  isSubmitted : Bool := false
  error : Option String := none
  validationErrors : ValidationErrors := {}
deriving DecidableEq, Repr

/-- `handleSubmit` from `page.tsx`, up to the point where the `fetch` to
`/api/signup` is issued: clear previous validation errors, trim the fields,
run `validateForm`; on validation errors store them and return, otherwise
enter the loading state and issue the network call.  The returned flag is
whether a network call was issued. -/
def handleSubmit (s : FormState) : FormState × Bool :=
  let email := String.mk (jsTrim s.email.data)
  let school : Option String :=
    if String.mk (jsTrim s.school.data) = "" then none
    else some (String.mk (jsTrim s.school.data))
  let errs := validateForm email school
  if errs = ({} : ValidationErrors) then
    ({ s with isLoading := true, error := none, validationErrors := {} }, true)
  else
    ({ s with validationErrors := errs }, false)

/-- The `disabled` attribute of the submit control in `page.tsx`:
`signupForm.isLoading || signupForm.isSubmitted` (the email and school inputs
are likewise disabled while `isLoading`). -/
def submitControlDisabled (s : FormState) : Bool := s.isLoading || s.isSubmitted

/-- A user-initiated submission of the form: the browser dispatches the
submit event — and so runs `handleSubmit` — only when the submit control is
enabled; a disabled control neither fires nor allows implicit form
submission. -/
def dispatchSubmit (s : FormState) : FormState × Bool :=
  if submitControlDisabled s then (s, false) else handleSubmit s

/-! ### Derived predicates and concrete fixtures -/

/-- No leading JS whitespace. -/
def noLeadWS (s : List Char) : Bool :=
  match s.head? with
  | none => true
  | some c => !jsWS c

/-- No trailing JS whitespace. -/
def noTrailWS (s : List Char) : Bool :=
  match s.getLast? with
  | none => true
  | some c => !jsWS c

/-- `s` is untouched by every pass of `sanitizeInput`: no surrounding
whitespace, no angle bracket, no (case-insensitive) occurrence of any
stripped pattern, and length at most 100. -/
def isSanitized (s : List Char) : Bool :=
  noLeadWS s && noTrailWS s &&
  !s.any (fun c => c == '<' || c == '>') &&
  !hasCI "javascript:".data s &&
  !hasCI "data:".data s &&
  !hasCI "vbscript:".data s &&
  !hasOnPattern s &&
  !hasCI "<script".data s &&
  !hasCI "</script".data s &&
  s.length ≤ 100

/-- Characters allowed anywhere in a string matched by `EMAIL_REGEX`. -/
def allowedEmailChar (c : Char) : Bool :=
  isLocalChar c || isAlnumDash c || c == '@' || c == '.'

/-- Every stored entry has `1 ≤ count ≤ 5` and a `resetTime` of the form
creation time plus the 15-minute window. -/
def rlInv (store : RLStore) : Prop :=
  ∀ ip e, store ip = some e →
    1 ≤ e.count ∧ e.count ≤ maxRequests ∧ ∃ t, e.resetTime = t + windowMs

/-- The request of the end-to-end scenario: fixed IP, JSON content type,
valid email, no school. -/
def c2req : SignupReq :=
  { ip := "198.51.100.1"
    contentType := some "application/json"
    body := some { email := some "user@example.com", school := none } }

/-- The request of the oversized-school scenario: valid email and a school
field of 101 characters. -/
def c6req : SignupReq :=
  { ip := "198.51.100.2"
    contentType := some "application/json"
    body := some { email := some "user@example.com"
                   school := some (String.mk (List.replicate 101 'a')) } }

/-! ### String lemmas -/

theorem leadsWith_subset {p s : List Char} (h : leadsWith p s = true) :
    ∀ c ∈ p, c ∈ s := by
  induction p generalizing s with
  | nil => intro c hc; cases hc
  | cons a p ih =>
    cases s with
    | nil => simp [leadsWith] at h
    | cons b s' =>
      simp only [leadsWith, Bool.and_eq_true, beq_iff_eq] at h
      intro c hc
      rcases List.mem_cons.mp hc with rfl | hc
      · rw [h.1]; exact List.mem_cons_self _ _
      · exact List.mem_cons_of_mem _ (ih h.2 c hc)

theorem containsSub_subset {p s : List Char} (h : containsSub p s = true) :
    ∀ c ∈ p, c ∈ s := by
  induction s with
  | nil =>
    unfold containsSub at h
    intro c hc
    rw [List.isEmpty_iff.mp h] at hc
    cases hc
  | cons b s' ih =>
    simp only [containsSub, Bool.or_eq_true] at h
    rcases h with h | h
    · exact leadsWith_subset h
    · intro c hc; exact List.mem_cons_of_mem _ (ih h c hc)

/-- Every character of an included pattern occurs in the including string. -/
theorem strIncludes_mem {s pat : String} (h : strIncludes s pat = true) :
    ∀ c ∈ pat.data, c ∈ s.data :=
  containsSub_subset h

theorem dropWhile_eq_self_of_head {p : Char → Bool} {s : List Char}
    (h : ∀ c, s.head? = some c → p c = false) : s.dropWhile p = s := by
  cases s with
  | nil => rfl
  | cons c rest =>
    have hc : p c = false := h c rfl
    simp [List.dropWhile, hc]

theorem jsTrim_eq_self {s : List Char}
    (h1 : ∀ c, s.head? = some c → jsWS c = false)
    (h2 : ∀ c, s.getLast? = some c → jsWS c = false) : jsTrim s = s := by
  unfold jsTrim
  rw [dropWhile_eq_self_of_head h1]
  rw [dropWhile_eq_self_of_head (fun c hc => h2 c ((List.head?_reverse s).symm.trans hc))]
  exact List.reverse_reverse s

theorem removeCIAux_eq_self {p : List Char} :
    ∀ (fuel : Nat) (s : List Char), s.length ≤ fuel → hasCI p s = false →
      removeCIAux p fuel s = s := by
  intro fuel
  induction fuel with
  | zero =>
    intro s hlen _
    rw [List.length_eq_zero.mp (Nat.le_zero.mp hlen)]
    rfl
  | succ n ih =>
    intro s hlen h
    cases s with
    | nil => rfl
    | cons c rest =>
      simp only [hasCI, Bool.or_eq_false_iff] at h
      unfold removeCIAux
      rw [h.1, if_neg Bool.false_ne_true]
      exact congrArg (c :: ·) (ih rest (Nat.le_of_succ_le_succ hlen) h.2)

theorem removeCI_eq_self {p s : List Char} (h : hasCI p s = false) :
    removeCI p s = s :=
  removeCIAux_eq_self s.length s Nat.le.refl h

theorem removeOnAux_eq_self :
    ∀ (fuel : Nat) (s : List Char), s.length ≤ fuel → hasOnPattern s = false →
      removeOnAux fuel s = s := by
  intro fuel
  induction fuel with
  | zero =>
    intro s hlen _
    rw [List.length_eq_zero.mp (Nat.le_zero.mp hlen)]
    rfl
  | succ n ih =>
    intro s hlen h
    cases s with
    | nil => rfl
    | cons c rest =>
      cases honm : onMatchLen (c :: rest) with
      | some k =>
        exfalso
        unfold hasOnPattern at h
        rw [honm] at h
        simp at h
      | none =>
        have h2 : hasOnPattern rest = false := by
          unfold hasOnPattern at h
          rw [honm] at h
          simpa using h
        unfold removeOnAux
        rw [honm]
        exact congrArg (c :: ·) (ih rest (Nat.le_of_succ_le_succ hlen) h2)

theorem removeOn_eq_self {s : List Char} (h : hasOnPattern s = false) :
    removeOn s = s :=
  removeOnAux_eq_self s.length s Nat.le.refl h

/-! ### Sanitizer fixed points -/

theorem sanitizeCore_eq_self {s : List Char} (h : isSanitized s = true) :
    sanitizeCore s = s := by
  simp only [isSanitized, Bool.and_eq_true, Bool.not_eq_true', decide_eq_true_eq] at h
  obtain ⟨⟨⟨⟨⟨⟨⟨⟨⟨hwl, hwt⟩, hang⟩, hjs⟩, hdata⟩, hvb⟩, hon⟩, hsc1⟩, hsc2⟩, hlen⟩ := h
  have htrim : jsTrim s = s := by
    refine jsTrim_eq_self (fun c hc => ?_) (fun c hc => ?_)
    · unfold noLeadWS at hwl
      rw [hc] at hwl
      simpa using hwl
    · unfold noTrailWS at hwt
      rw [hc] at hwt
      simpa using hwt
  have hfilter : s.filter (fun c => !(c == '<' || c == '>')) = s := by
    refine List.filter_eq_self.mpr (fun a ha => ?_)
    have := List.any_eq_false.mp hang a ha
    simpa using this
  unfold sanitizeCore
  rw [htrim, hfilter, removeCI_eq_self hjs, removeCI_eq_self hdata,
    removeCI_eq_self hvb, removeOn_eq_self hon, removeCI_eq_self hsc1,
    removeCI_eq_self hsc2]
  exact List.take_of_length_le hlen

/-! ### Email matcher lemmas -/

theorem splitDots_ne_nil (s : List Char) : splitDots s ≠ [] := by
  cases s with
  | nil => simp [splitDots]
  | cons c rest =>
    unfold splitDots
    cases splitDots rest with
    | nil => simp
    | cons p ps =>
      by_cases hc : c == '.' <;> simp [hc]

theorem labelTail_chars {l : List Char} (h : labelTail l = true) :
    ∀ c ∈ l, isAlnumDash c = true := by
  induction l with
  | nil => intro c hc; cases hc
  | cons a rest ih =>
    intro c hc
    cases rest with
    | nil =>
      rcases List.mem_cons.mp hc with rfl | hc'
      · unfold labelTail at h
        unfold isAlnumDash
        rw [h]
        rfl
      · cases hc'
    | cons b rest' =>
      unfold labelTail at h
      rw [Bool.and_eq_true] at h
      rcases List.mem_cons.mp hc with rfl | hc'
      · exact h.1
      · exact ih h.2 c hc'

theorem labelOk_chars {l : List Char} (h : labelOk l = true) :
    ∀ c ∈ l, isAlnumDash c = true := by
  cases l with
  | nil => intro c hc; cases hc
  | cons a rest =>
    unfold labelOk at h
    rw [Bool.and_eq_true, Bool.and_eq_true] at h
    intro c hc
    rcases List.mem_cons.mp hc with rfl | hc'
    · unfold isAlnumDash
      rw [h.1.1]
      rfl
    · exact labelTail_chars h.2 c hc'

theorem splitDots_cons {rest p : List Char} {ps : List (List Char)} (b : Char)
    (hsd : splitDots rest = p :: ps) :
    splitDots (b :: rest) = if b == '.' then [] :: p :: ps else (b :: p) :: ps := by
  unfold splitDots
  rw [hsd]

theorem splitDots_chars {s : List Char}
    (h : (splitDots s).all (fun l => l.all isAlnumDash) = true) :
    ∀ c ∈ s, (isAlnumDash c || c == '.') = true := by
  induction s with
  | nil => intro c hc; cases hc
  | cons b rest ih =>
    cases hsd : splitDots rest with
    | nil => exact absurd hsd (splitDots_ne_nil rest)
    | cons p ps =>
      rw [splitDots_cons b hsd] at h
      by_cases hb : b == '.'
      · rw [if_pos hb] at h
        simp only [List.all_cons, Bool.and_eq_true] at h
        intro c hc
        rcases List.mem_cons.mp hc with rfl | hc'
        · rw [hb]
          exact Bool.or_true _
        · refine ih ?_ c hc'
          rw [hsd]
          simp only [List.all_cons, Bool.and_eq_true]
          exact h.2
      · rw [if_neg (by simpa using hb)] at h
        simp only [List.all_cons, Bool.and_eq_true] at h
        intro c hc
        rcases List.mem_cons.mp hc with rfl | hc'
        · rw [h.1.1]
          rfl
        · refine ih ?_ c hc'
          rw [hsd]
          simp only [List.all_cons, Bool.and_eq_true]
          exact ⟨h.1.2, h.2⟩

theorem emailMatch_chars {s : List Char} (h : emailMatch s = true) :
    ∀ c ∈ s, allowedEmailChar c = true := by
  unfold emailMatch at h
  intro c hc
  rw [← List.takeWhile_append_dropWhile (p := fun c => c != '@') (l := s)] at hc
  cases hdrop : s.dropWhile (fun c => c != '@') with
  | nil =>
    rw [hdrop] at h
    simp at h
  | cons a domain =>
    rw [hdrop] at h
    simp only [Bool.and_eq_true, beq_iff_eq] at h
    obtain ⟨⟨⟨rfl, _⟩, hlocal⟩, hlabels⟩ := h
    rw [hdrop] at hc
    rcases List.mem_append.mp hc with hc' | hc'
    · unfold allowedEmailChar
      rw [List.all_eq_true.mp hlocal c hc']
      rfl
    · rcases List.mem_cons.mp hc' with rfl | hc''
      · simp [allowedEmailChar]
      · have hall : (splitDots domain).all (fun l => l.all isAlnumDash) = true := by
          rw [List.all_eq_true]
          intro l hl
          rw [List.all_eq_true]
          exact labelOk_chars (List.all_eq_true.mp hlabels l hl) 
        have := splitDots_chars hall c hc''
        unfold allowedEmailChar
        rcases Bool.or_eq_true_iff.mp this with h' | h'
        · rw [h']
          simp
        · rw [h']
          simp

/-! ### Claim C4 — sanitizer idempotence -/

/-- Claim C4 (counterexample): `sanitizeInput` is NOT idempotent.  Removing
`javascript:` from `jajavascript:vascript:` splices the surrounding text into
a fresh `javascript:`, which only a second pass removes. -/
theorem sanitizeInput_not_idempotent :
    sanitizeInput (sanitizeInput "jajavascript:vascript:") ≠
      sanitizeInput "jajavascript:vascript:" := by decide

/-- Claim C4 (amended): `sanitizeInput(sanitizeInput(x)) = sanitizeInput(x)`
for every string `x` whose first sanitization output is itself free of the
stripped material — no surrounding whitespace, no `<`/`>`, no
case-insensitive `javascript:`, `data:`, `vbscript:`, `on…=`, `<script` or
`</script` occurrence, and length at most 100 (`isSanitized`).  On such
outputs every pass of the sanitizer is the identity. -/
theorem sanitizeInput_idempotent_on_clean (x : String)
    (h : isSanitized (sanitizeInput x).data = true) :
    sanitizeInput (sanitizeInput x) = sanitizeInput x :=
  congrArg String.mk (sanitizeCore_eq_self h)

/-- Witness for the amended C4 at the concrete input `hello world`. -/
theorem sanitizeInput_idempotent_on_clean_witness :
    isSanitized (sanitizeInput "hello world").data = true ∧
      sanitizeInput (sanitizeInput "hello world") = sanitizeInput "hello world" :=
  ⟨by decide, sanitizeInput_idempotent_on_clean "hello world" (by decide)⟩

/-! ### Claim C5 — email acceptance -/

/-- Claim C5: every string that matches the email grammar of `EMAIL_REGEX`,
is at most 254 characters long and has no `..` substring is accepted by
`validateEmailFormat`; and the listed concrete strings, and every string
longer than 254 characters, are rejected. -/
theorem validateEmailFormat_spec :
    (∀ e : String, emailMatch e.data = true → e.length ≤ 254 →
        strIncludes e ".." = false → validateEmailFormat e = true)
    ∧ validateEmailFormat "" = false
    ∧ validateEmailFormat "plainaddress" = false
    ∧ validateEmailFormat "@missing.com" = false
    ∧ validateEmailFormat "a@b..com" = false
    ∧ (∀ e : String, 254 < e.length → validateEmailFormat e = false) := by
  refine ⟨?_, by decide, by decide, by decide, by decide, ?_⟩
  · intro e hm hlen hdots
    have hne : ¬e = "" := by
      intro he
      rw [he] at hm
      exact absurd hm (by decide)
    have hjs : strIncludes e "javascript:" = false := by
      cases hc : strIncludes e "javascript:" with
      | false => rfl
      | true =>
        have hmem : ':' ∈ e.data := strIncludes_mem hc ':' (by decide)
        have := emailMatch_chars hm ':' hmem
        exact absurd this (by decide)
    have hsc : strIncludes e "<script>" = false := by
      cases hc : strIncludes e "<script>" with
      | false => rfl
      | true =>
        have hmem : '<' ∈ e.data := strIncludes_mem hc '<' (by decide)
        have := emailMatch_chars hm '<' hmem
        exact absurd this (by decide)
    unfold validateEmailFormat
    rw [if_neg hne, if_neg (Nat.not_lt.mpr hlen), hdots, hjs, hsc]
    simp only [Bool.false_eq_true, if_false]
    exact hm
  · intro e h
    unfold validateEmailFormat
    by_cases he : e = ""
    · rw [if_pos he]
    · rw [if_neg he, if_pos h]

/-- Witness for C5 at `user@example.com`. -/
theorem validateEmailFormat_spec_witness :
    validateEmailFormat "user@example.com" = true :=
  validateEmailFormat_spec.1 "user@example.com" (by decide) (by decide) (by decide)

/-! ### Claim C1 — `checkRateLimit` -/

/-- Claim C1: `checkRateLimit` installs a fresh `{count = 1, resetTime = now
+ 15min}` entry and allows when no entry exists or the stored `resetTime` is
before `now`; increments and allows while `count < 5`; otherwise denies with
`remaining = 0` and the stored `resetTime`, leaving the store unchanged.
Consequently a fresh IP gets `remaining` 4,3,2,1,0 on calls 1–5, is denied on
call 6, and is allowed again with a reset count once the window has
elapsed. -/
theorem checkRateLimit_spec (store : RLStore) (ip : String) (now : Nat) :
    ((store ip = none ∨ ∃ e, store ip = some e ∧ e.resetTime < now) →
      (checkRateLimit store ip now).1 =
        { allowed := true, remaining := maxRequests - 1, resetTime := now + windowMs } ∧
      (checkRateLimit store ip now).2 ip = some { count := 1, resetTime := now + windowMs })
    ∧ (∀ e, store ip = some e → ¬e.resetTime < now → e.count < maxRequests →
        (checkRateLimit store ip now).1 =
          { allowed := true, remaining := maxRequests - (e.count + 1),
            resetTime := e.resetTime } ∧
        (checkRateLimit store ip now).2 ip =
          some { count := e.count + 1, resetTime := e.resetTime })
    ∧ (∀ e, store ip = some e → ¬e.resetTime < now → ¬e.count < maxRequests →
        (checkRateLimit store ip now).1 =
          { allowed := false, remaining := 0, resetTime := e.resetTime } ∧
        (checkRateLimit store ip now).2 = store)
    ∧ ((rlRun rlEmpty "203.0.113.7" [0, 0, 0, 0, 0, 0, 900001]).1.map
          (fun r => (r.allowed, r.remaining)) =
        [(true, 4), (true, 3), (true, 2), (true, 1), (true, 0), (false, 0), (true, 4)] ∧
       (rlRun rlEmpty "203.0.113.7" [0, 0, 0, 0, 0, 0, 900001]).2 "203.0.113.7" =
         some { count := 1, resetTime := 900001 + windowMs }) := by
  refine ⟨?_, ?_, ?_, by decide, by decide⟩
  · rintro (hnone | ⟨e, he, hlt⟩)
    · constructor <;> simp [checkRateLimit, hnone, rlSet]
    · constructor <;> simp [checkRateLimit, he, hlt, rlSet]
  · intro e he hnlt hcount
    have hguard : ¬maxRequests ≤ e.count := Nat.not_le.mpr hcount
    constructor <;> simp [checkRateLimit, he, hnlt, hguard, rlSet]
  · intro e he hnlt hcount
    have hguard : maxRequests ≤ e.count := Nat.le_of_not_lt hcount
    constructor <;> simp [checkRateLimit, he, hnlt, hguard]

/-- Witness for C1: a fresh IP at time 5. -/
theorem checkRateLimit_spec_witness :
    (checkRateLimit rlEmpty "a" 5).1 =
      { allowed := true, remaining := maxRequests - 1, resetTime := 5 + windowMs } ∧
    (checkRateLimit rlEmpty "a" 5).2 "a" = some { count := 1, resetTime := 5 + windowMs } :=
  (checkRateLimit_spec rlEmpty "a" 5).1 (Or.inl rfl)


/-! ### Branch equations for the rate limiter -/

theorem checkRateLimit_none {store : RLStore} {ip : String} (now : Nat)
    (h : store ip = none) :
    checkRateLimit store ip now =
      ({ allowed := true, remaining := maxRequests - 1, resetTime := now + windowMs },
       rlSet store ip { count := 1, resetTime := now + windowMs }) := by
  simp [checkRateLimit, h]

theorem checkRateLimit_expired {store : RLStore} {ip : String} {now : Nat}
    {e : RLEntry} (h : store ip = some e) (hexp : e.resetTime < now) :
    checkRateLimit store ip now =
      ({ allowed := true, remaining := maxRequests - 1, resetTime := now + windowMs },
       rlSet store ip { count := 1, resetTime := now + windowMs }) := by
  simp [checkRateLimit, h, hexp]

theorem checkRateLimit_deny {store : RLStore} {ip : String} {now : Nat}
    {e : RLEntry} (h : store ip = some e) (hexp : ¬e.resetTime < now)
    (hfull : maxRequests ≤ e.count) :
    checkRateLimit store ip now =
      ({ allowed := false, remaining := 0, resetTime := e.resetTime }, store) := by
  simp [checkRateLimit, h, hexp, hfull]

theorem checkRateLimit_incr {store : RLStore} {ip : String} {now : Nat}
    {e : RLEntry} (h : store ip = some e) (hexp : ¬e.resetTime < now)
    (hfull : ¬maxRequests ≤ e.count) :
    checkRateLimit store ip now =
      ({ allowed := true, remaining := maxRequests - (e.count + 1),
         resetTime := e.resetTime },
       rlSet store ip { count := e.count + 1, resetTime := e.resetTime }) := by
  simp [checkRateLimit, h, hexp, hfull]

/-- The store written by `checkRateLimit` is the input store or an update at
the checked key only. -/
theorem checkRateLimit_store_cases (store : RLStore) (ip : String) (now : Nat) :
    (checkRateLimit store ip now).2 = store ∨
    ∃ e, (checkRateLimit store ip now).2 = rlSet store ip e := by
  cases hsi : store ip with
  | none => exact Or.inr ⟨_, by rw [checkRateLimit_none now hsi]⟩
  | some e =>
    by_cases hexp : e.resetTime < now
    · exact Or.inr ⟨_, by rw [checkRateLimit_expired hsi hexp]⟩
    · by_cases hfull : maxRequests ≤ e.count
      · exact Or.inl (by rw [checkRateLimit_deny hsi hexp hfull])
      · exact Or.inr ⟨_, by rw [checkRateLimit_incr hsi hexp hfull]⟩

/-- `rateLimitMiddleware` either passes the request through with the store of
`checkRateLimit`, or denies and additionally sweeps expired entries. -/
theorem rateLimitMiddleware_cases (store : RLStore) (ip : String) (now : Nat) :
    ((rateLimitMiddleware store ip now).1 = none ∧
      (rateLimitMiddleware store ip now).2 = (checkRateLimit store ip now).2) ∨
    ((rateLimitMiddleware store ip now).1.isSome = true ∧
      (rateLimitMiddleware store ip now).2 =
        sweepStore (checkRateLimit store ip now).2 now) := by
  by_cases hA : (checkRateLimit store ip now).1.allowed = true
  · left
    constructor <;> simp [rateLimitMiddleware, hA]
  · right
    constructor <;> simp [rateLimitMiddleware, hA]

theorem sweepStore_apply (store : RLStore) (now : Nat) (k : String) :
    sweepStore store now k =
      match store k with
      | some e => if e.resetTime < now then none else some e
      | none => none := rfl

/-! ### Claim C9 — per-IP frame property -/

/-- Claim C9: processing a request for IP `ip` never touches the entry of a
different IP `b` whose window has not expired: `checkRateLimit` leaves every
other key unchanged, and the sweep run by `rateLimitMiddleware` on a denied
request deletes only entries whose `resetTime` has already passed. -/
theorem rateLimit_frame (store : RLStore) (ip b : String) (now : Nat) (h : b ≠ ip) :
    (checkRateLimit store ip now).2 b = store b
    ∧ ((rateLimitMiddleware store ip now).2 b = store b ∨
        ∃ e, store b = some e ∧ e.resetTime < now ∧
          (rateLimitMiddleware store ip now).2 b = none)
    ∧ (∀ e, store b = some e → ¬e.resetTime < now →
        (rateLimitMiddleware store ip now).2 b = some e) := by
  have hframe : (checkRateLimit store ip now).2 b = store b := by
    rcases checkRateLimit_store_cases store ip now with hcs | ⟨e, hcs⟩
    · rw [hcs]
    · rw [hcs]
      unfold rlSet
      rw [if_neg h]
  refine ⟨hframe, ?_, ?_⟩
  · rcases rateLimitMiddleware_cases store ip now with ⟨_, hst⟩ | ⟨_, hst⟩
    · left
      rw [hst, hframe]
    · rw [hst, sweepStore_apply, hframe]
      cases hsb : store b with
      | none => exact Or.inl rfl
      | some e =>
        by_cases he : e.resetTime < now
        · exact Or.inr ⟨e, rfl, he, by simp [he]⟩
        · exact Or.inl (by simp [he])
  · intro e hsb hne
    rcases rateLimitMiddleware_cases store ip now with ⟨_, hst⟩ | ⟨_, hst⟩
    · rw [hst, hframe, hsb]
    · rw [hst, sweepStore_apply, hframe, hsb]
      simp [hne]

/-- Witness for C9: an unexpired entry for `b` survives a request from `a`. -/
theorem rateLimit_frame_witness :
    (checkRateLimit (rlSet rlEmpty "b" { count := 2, resetTime := 100 }) "a" 5).2 "b" =
      rlSet rlEmpty "b" { count := 2, resetTime := 100 } "b" :=
  (rateLimit_frame (rlSet rlEmpty "b" { count := 2, resetTime := 100 }) "a" "b" 5
    (by decide)).1

/-! ### Claim C10 — store invariant -/

theorem rlInv_rlSet {store : RLStore} {ip : String} {e : RLEntry}
    (h : rlInv store) (h1 : 1 ≤ e.count) (h2 : e.count ≤ maxRequests)
    (h3 : ∃ t, e.resetTime = t + windowMs) : rlInv (rlSet store ip e) := by
  intro k e' hk
  unfold rlSet at hk
  by_cases hki : k = ip
  · rw [if_pos hki] at hk
    cases hk
    exact ⟨h1, h2, h3⟩
  · rw [if_neg hki] at hk
    exact h k e' hk

theorem rlInv_checkRateLimit {store : RLStore} (h : rlInv store) (ip : String)
    (now : Nat) : rlInv (checkRateLimit store ip now).2 := by
  cases hsi : store ip with
  | none =>
    rw [checkRateLimit_none now hsi]
    exact rlInv_rlSet h Nat.le.refl (show (1 : Nat) ≤ maxRequests by decide) ⟨now, rfl⟩
  | some e =>
    by_cases hexp : e.resetTime < now
    · rw [checkRateLimit_expired hsi hexp]
      exact rlInv_rlSet h Nat.le.refl (show (1 : Nat) ≤ maxRequests by decide) ⟨now, rfl⟩
    · by_cases hfull : maxRequests ≤ e.count
      · rw [checkRateLimit_deny hsi hexp hfull]
        exact h
      · rw [checkRateLimit_incr hsi hexp hfull]
        obtain ⟨he1, he2, t, ht⟩ := h ip e hsi
        refine rlInv_rlSet h ?_ ?_ ⟨t, ht⟩
        · exact Nat.le_succ_of_le he1
        · exact Nat.succ_le_of_lt (Nat.lt_of_not_le hfull)

theorem rlInv_sweep {store : RLStore} (h : rlInv store) (now : Nat) :
    rlInv (sweepStore store now) := by
  intro k e' hk
  rw [sweepStore_apply] at hk
  cases hsk : store k with
  | none => rw [hsk] at hk; cases hk
  | some e =>
    rw [hsk] at hk
    simp only at hk
    by_cases he : e.resetTime < now
    · rw [if_pos he] at hk; cases hk
    · rw [if_neg he] at hk
      cases hk
      exact h k e' hsk

/-- Claim C10: the store invariant is preserved by `checkRateLimit`,
`rateLimitMiddleware`, `addRateLimitHeaders` and `cleanupRateLimitStore`. -/
theorem rateLimitStore_invariant (store : RLStore) (ip : String) (now : Nat)
    (resp : Response) (h : rlInv store) :
    rlInv (checkRateLimit store ip now).2
    ∧ rlInv (rateLimitMiddleware store ip now).2
    ∧ rlInv (addRateLimitHeaders resp store ip now).2
    ∧ rlInv (cleanupRateLimitStore store now) := by
  refine ⟨rlInv_checkRateLimit h ip now, ?_, ?_, rlInv_sweep h now⟩
  · rcases rateLimitMiddleware_cases store ip now with ⟨_, hst⟩ | ⟨_, hst⟩
    · rw [hst]
      exact rlInv_checkRateLimit h ip now
    · rw [hst]
      exact rlInv_sweep (rlInv_checkRateLimit h ip now) now
  · show rlInv (checkRateLimit store ip now).2
    exact rlInv_checkRateLimit h ip now

/-- Witness for C10: the invariant holds of the empty store and is carried
through one `checkRateLimit` call. -/
theorem rateLimitStore_invariant_witness :
    rlInv (checkRateLimit rlEmpty "a" 0).2 :=
  (rateLimitStore_invariant rlEmpty "a" 0 { status := 200 }
    (fun _ _ hk => Option.noConfusion hk)).1

/-! ### Claim C8 — duplicate submission guard -/

/-- Claim C8: while the controller is in the Submitting state
(`isLoading = true`), a further submission of the form issues no second
network call and leaves the state unchanged — the submit control (and both
inputs) are disabled, so the submit event is never dispatched. -/
theorem no_second_network_call (s : FormState) (h : s.isLoading = true) :
    dispatchSubmit s = (s, false) := by
  unfold dispatchSubmit submitControlDisabled
  rw [h]
  simp

/-- Witness for C8: the loading state with a filled email field. -/
theorem no_second_network_call_witness :
    dispatchSubmit { email := "user@example.com", isLoading := true } =
      ({ email := "user@example.com", isLoading := true }, false) :=
  no_second_network_call { email := "user@example.com", isLoading := true } rfl

/-! ### Claim C2 — end-to-end rate-limit scenario -/

/-- Claim C2 is violated by the code: with the provider succeeding on each
accepted request, consecutive POSTs from one IP inside the window are allowed
only three times, and the FOURTH request already short-circuits with
`429 RATE_LIMITED` — not the sixth as claimed.  Each successful request burns
two rate-limit tokens, because `addRateLimitHeaders` on the success path
calls `checkRateLimit` a second time. -/
theorem signup_fourth_request_rate_limited :
    ((postRun c2req (some goodKey) (some "12345") (.ok (some "sub_1")) rlEmpty
        [0, 1, 2, 3]).1.map
      (fun r => (r.status, r.error, r.success, r.retryAfter))) =
    [(200, none, true, none), (200, none, true, none), (200, none, true, none),
     (429, some "RATE_LIMITED", false, some 900)] := by decide

/-! ### Claim C6 — oversized school field -/

/-- Claim C6 is violated by the code: `sanitizeInput` truncates its argument
to 100 characters (`substring(0, 100)`), so the sanitized school can never be
longer than 100 characters and the `INVALID_SCHOOL` branch of `POST` is
unreachable; a request with a 101-character school is truncated and forwarded
to the provider, returning success.  The first conjunct is the general bound,
the second shows the guard can never fire, the rest evaluate the handler at
the failing input. -/
theorem oversized_school_not_rejected :
    (∀ s : String, (sanitizeInput s).length ≤ 100)
    ∧ (∀ b : SignupBody, schoolTooLong (sanitizedSchool b) = false)
    ∧ (POST c6req (some goodKey) (some "12345") (.ok (some "sub_2")) rlEmpty 0).1.status
        = 200
    ∧ (POST c6req (some goodKey) (some "12345") (.ok (some "sub_2")) rlEmpty 0).1.success
        = true
    ∧ (POST c6req (some goodKey) (some "12345") (.ok (some "sub_2")) rlEmpty 0).1.error
        = none := by
  have hlen : ∀ s : String, (sanitizeInput s).length ≤ 100 := by
    intro s
    show (sanitizeCore s.data).length ≤ 100
    unfold sanitizeCore
    rw [List.length_take]
    exact min_le_left _ _
  refine ⟨hlen, ?_, by decide, by decide, by decide⟩
  intro b
  unfold schoolTooLong sanitizedSchool
  by_cases hf : strFalsy b.school
  · rw [if_pos hf]
  · rw [if_neg hf]
    have := hlen (b.school.getD "")
    simp only [Bool.and_eq_false_iff, decide_eq_false_iff_not]
    right
    omega

/-! ### Claim C3 — provider outcome translation -/

theorem goodEnvOk : validateEnvironmentVariables (some goodKey) (some "12345") =
    .ok { apiKey := goodKey, groupId := "12345" } := by rfl


theorem POST_pass {store : RLStore} {req : SignupReq} {now : Nat}
    (h : (rateLimitMiddleware store req.ip now).1 = none)
    (apiKeyEnv groupIdEnv : Option String) (outcome : ProviderOutcome) :
    POST req apiKeyEnv groupIdEnv outcome store now =
      handleSignup req apiKeyEnv groupIdEnv outcome
        (rateLimitMiddleware store req.ip now).2 now := by
  simp only [POST, h]

theorem handleSignup_error {req : SignupReq} {b : SignupBody}
    {apiKeyEnv groupIdEnv : Option String} {outcome : ProviderOutcome} {m : String}
    (hct : ctOk req.contentType = true)
    (hbody : req.body = some b)
    (hemail : strFalsy b.email = false)
    (hvalid : validateEmailFormat (sanitizeInput (b.email.getD "")) = true)
    (hschool : schoolTooLong (sanitizedSchool b) = false)
    (hm : addSubscriberToMailerLite apiKeyEnv groupIdEnv outcome = .error m)
    (store : RLStore) (now : Nat) :
    handleSignup req apiKeyEnv groupIdEnv outcome store now =
      (mapCaughtError m, store) := by
  simp only [handleSignup, hct, hbody, hemail, hvalid, hschool, hm, if_true,
    Bool.false_eq_true, if_false]

/-- Claim C3: for every request that reaches the provider stage, the proxy's
translation of provider outcomes is fixed — HTTP 400 whose body message
contains `already exists` becomes `400 DUPLICATE_EMAIL`, HTTP 429 becomes
`429 RATE_LIMITED`, and a timeout/abort of the provider call becomes
`500 NETWORK_ERROR`. -/
theorem providerErrorMapping (store : RLStore) (req : SignupReq) (now : Nat)
    (b : SignupBody) (apiKeyEnv groupIdEnv : Option String) (cfg : Config)
    (hgate : (rateLimitMiddleware store req.ip now).1 = none)
    (hct : ctOk req.contentType = true)
    (hbody : req.body = some b)
    (hemail : strFalsy b.email = false)
    (hvalid : validateEmailFormat (sanitizeInput (b.email.getD "")) = true)
    (hschool : schoolTooLong (sanitizedSchool b) = false)
    (hcfg : validateEnvironmentVariables apiKeyEnv groupIdEnv = .ok cfg) :
    (∀ m, strIncludes m "already exists" = true →
        (POST req apiKeyEnv groupIdEnv (.http400 (some m)) store now).1.status = 400 ∧
        (POST req apiKeyEnv groupIdEnv (.http400 (some m)) store now).1.error =
          some "DUPLICATE_EMAIL")
    ∧ ((POST req apiKeyEnv groupIdEnv .http429 store now).1.status = 429 ∧
       (POST req apiKeyEnv groupIdEnv .http429 store now).1.error =
         some "RATE_LIMITED")
    ∧ ((POST req apiKeyEnv groupIdEnv .aborted store now).1.status = 500 ∧
       (POST req apiKeyEnv groupIdEnv .aborted store now).1.error =
         some "NETWORK_ERROR") := by
  refine ⟨?_, ?_, ?_⟩
  · intro m hdup
    have hsub : addSubscriberToMailerLite apiKeyEnv groupIdEnv (.http400 (some m)) =
        .error "DUPLICATE_EMAIL" := by
      simp [addSubscriberToMailerLite, hcfg, isDuplicateBody, hdup]
    rw [POST_pass hgate, handleSignup_error hct hbody hemail hvalid hschool hsub]
    exact ⟨rfl, rfl⟩
  · have hsub : addSubscriberToMailerLite apiKeyEnv groupIdEnv .http429 =
        .error "RATE_LIMITED" := by
      simp [addSubscriberToMailerLite, hcfg]
    rw [POST_pass hgate, handleSignup_error hct hbody hemail hvalid hschool hsub]
    exact ⟨rfl, rfl⟩
  · have hsub : addSubscriberToMailerLite apiKeyEnv groupIdEnv .aborted =
        .error "NETWORK_ERROR" := by
      simp [addSubscriberToMailerLite, hcfg]
    rw [POST_pass hgate, handleSignup_error hct hbody hemail hvalid hschool hsub]
    exact ⟨rfl, rfl⟩

/-- Witness for C3: a concrete request, environment and duplicate-email
provider body. -/
theorem providerErrorMapping_witness :
    (POST { ip := "203.0.113.9", contentType := some "application/json",
            body := some { email := some "user@example.com", school := none } }
        (some goodKey) (some "12345")
        (.http400 (some "Email already exists in this group")) rlEmpty 7).1.status = 400 ∧
    (POST { ip := "203.0.113.9", contentType := some "application/json",
            body := some { email := some "user@example.com", school := none } }
        (some goodKey) (some "12345")
        (.http400 (some "Email already exists in this group")) rlEmpty 7).1.error =
      some "DUPLICATE_EMAIL" :=
  (providerErrorMapping rlEmpty
      { ip := "203.0.113.9", contentType := some "application/json",
        body := some { email := some "user@example.com", school := none } }
      7 { email := some "user@example.com", school := none }
      (some goodKey) (some "12345") { apiKey := goodKey, groupId := "12345" }
      (by decide) (by decide) rfl rfl (by decide) (by decide) goodEnvOk).1
    "Email already exists in this group" (by decide)

/-! ### Claim C7 — `X-RateLimit-*` response headers -/

theorem mapCaughtError_headers (m : String) :
    (hasHeader (mapCaughtError m) "X-RateLimit-Limit" &&
     hasHeader (mapCaughtError m) "X-RateLimit-Remaining" &&
     hasHeader (mapCaughtError m) "X-RateLimit-Reset") =
      (mapCaughtError m).success := by
  unfold mapCaughtError
  split_ifs <;> rfl

theorem handleSignup_headers (req : SignupReq) (apiKeyEnv groupIdEnv : Option String)
    (outcome : ProviderOutcome) (store : RLStore) (now : Nat) :
    (hasHeader (handleSignup req apiKeyEnv groupIdEnv outcome store now).1
        "X-RateLimit-Limit" &&
     hasHeader (handleSignup req apiKeyEnv groupIdEnv outcome store now).1
        "X-RateLimit-Remaining" &&
     hasHeader (handleSignup req apiKeyEnv groupIdEnv outcome store now).1
        "X-RateLimit-Reset") =
      (handleSignup req apiKeyEnv groupIdEnv outcome store now).1.success := by
  simp only [handleSignup]
  split
  · split
    · exact mapCaughtError_headers _
    · split
      · rfl
      · split
        · split
          · rfl
          · split
            · rfl
            · exact mapCaughtError_headers _
        · rfl
  · rfl

/-- Claim C7 (amended): a response of `POST` carries the three
`X-RateLimit-*` headers exactly when it is the rate-limit gate's own 429
response or the success response; the validation-failure and provider-error
responses built by `NextResponse.json` carry none of them. -/
theorem rateLimitHeaders_only_gate_and_success (req : SignupReq)
    (apiKeyEnv groupIdEnv : Option String) (outcome : ProviderOutcome)
    (store : RLStore) (now : Nat) :
    (hasHeader (POST req apiKeyEnv groupIdEnv outcome store now).1
        "X-RateLimit-Limit" &&
     hasHeader (POST req apiKeyEnv groupIdEnv outcome store now).1
        "X-RateLimit-Remaining" &&
     hasHeader (POST req apiKeyEnv groupIdEnv outcome store now).1
        "X-RateLimit-Reset") =
    ((rateLimitMiddleware store req.ip now).1.isSome ||
      (POST req apiKeyEnv groupIdEnv outcome store now).1.success) := by
  cases hg : (rateLimitMiddleware store req.ip now).1 with
  | none =>
    rw [POST_pass hg]
    simp only [Option.isSome_none, Bool.false_or]
    exact handleSignup_headers req apiKeyEnv groupIdEnv outcome _ now
  | some r =>
    have hP : POST req apiKeyEnv groupIdEnv outcome store now =
        (r, (rateLimitMiddleware store req.ip now).2) := by
      simp [POST, hg]
    rw [hP]
    simp only [Option.isSome_some, Bool.true_or]
    simp only [rateLimitMiddleware] at hg
    by_cases hA : (checkRateLimit store req.ip now).1.allowed = true
    · rw [if_pos hA] at hg
      exact Option.noConfusion hg
    · rw [if_neg hA] at hg
      injection hg with hr
      rw [← hr]
      rfl

/-- Claim C7 (counterexample): the `INVALID_EMAIL` failure response of
`POST` — one of the outcomes the claim covers — carries none of the
`X-RateLimit-*` headers; only the gate's 429 and the success response get
them. -/
theorem rateLimitHeaders_missing_on_failure :
    (POST { ip := "198.51.100.3", contentType := some "application/json",
            body := some { email := some "notanemail", school := none } }
        (some goodKey) (some "12345") (.ok none) rlEmpty 0).1.status = 400 ∧
    (POST { ip := "198.51.100.3", contentType := some "application/json",
            body := some { email := some "notanemail", school := none } }
        (some goodKey) (some "12345") (.ok none) rlEmpty 0).1.error =
      some "INVALID_EMAIL" ∧
    hasHeader
      (POST { ip := "198.51.100.3", contentType := some "application/json",
              body := some { email := some "notanemail", school := none } }
          (some goodKey) (some "12345") (.ok none) rlEmpty 0).1
      "X-RateLimit-Limit" = false := by decide
